import Mathlib

/-!
Verification of the terrier storage-engine core: a shallow embedding of the
projected-row initializer (`src/storage/delta_record.cpp`), the tuple access
strategy (`storage/tuple_access_strategy.h`), and the object pool
(`common/object_pool.h`), with theorems checking the natural-language
specification against the code.
-/

/-- `StorageUtil::PadUpToSize(word_size, offset)`: pads `offset` up to the
next multiple of `wordSize`. Modelled from the spec: `storage_util.h` is not
in the sources; the spec describes every use as padding a running size up to
an alignment boundary. -/
def StorageUtil.padUpToSize (wordSize offset : Nat) : Nat :=
  offset + (if offset % wordSize = 0 then 0 else wordSize - offset % wordSize)

/-- `common::RawBitmap::SizeInBytes(n)`. Modelled from the spec: the bitmap
header file is not in the sources; the spec says the bitmap block occupies
`ceil(n/8)` bytes for `n` bits. -/
def RawBitmap.sizeInBytes (n : Nat) : Nat := (n + 7) / 8

/-- `storage::BlockLayout` (from the spec data model §3): the per-column
attribute sizes; `num_cols` is derived. -/
structure BlockLayout where
  attrSizes : List Nat
deriving Repr, DecidableEq

/-- `BlockLayout::NumCols()`. -/
def BlockLayout.numCols (L : BlockLayout) : Nat := L.attrSizes.length

/-- `BlockLayout::AttrSize(col)`. -/
def BlockLayout.attrSize (L : BlockLayout) (col : Nat) : Nat :=
  L.attrSizes.getD col 0

/-- The spec invariant on layouts: attribute sizes lie in {1, 2, 4, 8, 16}. -/
def BlockLayout.validSizes (L : BlockLayout) : Prop :=
  ∀ s ∈ L.attrSizes, s = 1 ∨ s = 2 ∨ s = 4 ∨ s = 8 ∨ s = 16

instance (L : BlockLayout) : Decidable L.validSizes := by
  unfold BlockLayout.validSizes; infer_instance

/-- A `col_ids` request that is a strict non-empty subset of the layout's
columns (the spec invariant on `ProjectedRowInitializer` inputs). -/
def validColIds (L : BlockLayout) (colIds : List Nat) : Prop :=
  colIds ≠ [] ∧ colIds.length < L.numCols ∧ ∀ c ∈ colIds, c < L.numCols

instance (L : BlockLayout) (colIds : List Nat) : Decidable (validColIds L colIds) := by
  unfold validColIds; infer_instance

/-- `sizeof(ProjectedRow)` in the source: the `size_` (u32) and `num_cols_`
(u16) members, padded to 8 bytes; the constructor starts its running size at
this header size (delta_record.cpp line 31). -/
def projectedRowHeaderSize : Nat := 8

/-- `storage::ProjectedRowInitializer`: the precomputed plan
`{col_ids_, offsets_, size_}`. -/
structure ProjectedRowInitializer where
  colIds : List Nat
  offsets : List Nat
  size : Nat
deriving Repr, DecidableEq

/-- Lines 31–38 of delta_record.cpp: the running size after the header,
the sorted `col_ids` block (2 bytes each, padded to 4), the offsets block
(4 bytes each, padded to 8) and the null bitmap (padded to the first sorted
column's attribute size). `sorted` is the ascending-sorted col id list. -/
def ProjectedRowInitializer.headerEnd (L : BlockLayout) (sorted : List Nat) : Nat :=
  let s1 := StorageUtil.padUpToSize 4 (projectedRowHeaderSize + sorted.length * 2)
  let s2 := StorageUtil.padUpToSize 8 (s1 + sorted.length * 4)
  StorageUtil.padUpToSize (L.attrSize (sorted.headD 0))
    (s2 + RawBitmap.sizeInBytes sorted.length)

/-- Lines 39–45 of delta_record.cpp: the per-column loop. For each column,
record the current size as its offset, advance by its attribute size, and pad
up to the next column's attribute size — or to 8 at the last column. Returns
the offset list and the final size. -/
def ProjectedRowInitializer.bodyLoop (L : BlockLayout) : List Nat → Nat → List Nat × Nat
  | [], s => ([], s)
  | c :: rest, s =>
    let nextSize := match rest with
      | [] => 8
      | c2 :: _ => L.attrSize c2
    let s' := StorageUtil.padUpToSize nextSize (s + L.attrSize c)
    let tail := ProjectedRowInitializer.bodyLoop L rest s'
    (s :: tail.1, tail.2)

/-- `ProjectedRowInitializer::ProjectedRowInitializer(layout, col_ids)`
(the layout computation, lines 30–45): sorts the ids ascending, then runs the
header and body size computations. -/
def ProjectedRowInitializer.create (L : BlockLayout) (colIds : List Nat) :
    ProjectedRowInitializer :=
  let sorted := List.insertionSort (· ≤ ·) colIds
  let s0 := ProjectedRowInitializer.headerEnd L sorted
  let body := ProjectedRowInitializer.bodyLoop L sorted s0
  ⟨sorted, body.1, body.2⟩

/-- Models C++ move construction of a `std::vector` member from a parameter:
after `col_ids_(std::move(col_ids))` in the constructor's initializer list
(delta_record.cpp line 20) the parameter vector is empty. The size assertion
on line 22 reads the parameter `col_ids` after this move; the non-emptiness
assertion on line 21 reads the member `col_ids_`. -/
def movedFrom (_ : List Nat) : List Nat := []

/-- The first constructor assertion as written in the source (line 21):
`!col_ids_.empty()`, evaluated on the member `col_ids_`, which holds the
caller's list after the move. -/
def ctorAssertNonEmptyAsWritten (colIds : List Nat) : Bool :=
  !colIds.isEmpty

/-- The second constructor assertion as written in the source (line 22):
`col_ids.size() < layout.NumCols()`, evaluated on the moved-from parameter
`col_ids` (not the member `col_ids_`). -/
def ctorAssertSizeAsWritten (L : BlockLayout) (colIds : List Nat) : Bool :=
  decide ((movedFrom colIds).length < L.numCols)

/-- The constructor assertions as the spec intends them: the member
`col_ids_` (holding the caller's list) is non-empty and strictly smaller
than the layout's column count. -/
def ctorAssertsIntended (L : BlockLayout) (colIds : List Nat) : Bool :=
  !colIds.isEmpty && decide (colIds.length < L.numCols)

/-- `storage::ProjectedRow`: the self-describing record header plus its null
bitmap, viewed structurally (`size_`, `num_cols_`, the `col_ids` array, the
attribute-value offset array, and the presence bits of the bitmap block). -/
structure ProjectedRow where
  size : Nat
  numCols : Nat
  colIds : List Nat
  attrOffsets : List Nat
  bitmap : List Bool
deriving Repr, DecidableEq

/-- `ProjectedRowInitializer::InitializeRow(head)` (delta_record.cpp lines
48–59): writes `size_`, `num_cols_ = col_ids_.size()`, the col ids, the
offsets, and clears the bitmap for `num_cols_` bits. -/
def ProjectedRowInitializer.initializeRow (init : ProjectedRowInitializer) :
    ProjectedRow :=
  ⟨init.size, init.colIds.length, init.colIds, init.offsets,
   List.replicate init.colIds.length false⟩

/-- `ProjectedRow::AccessWithNullCheck(i)` for a row laid out at address
`head`. Modelled from the spec: the `ProjectedRow` accessor lives in
`delta_record.h`, which is not in the sources; the spec says it returns a
pointer to the attribute's bytes iff the presence bit is set, else none. -/
def ProjectedRow.accessWithNullCheck (head : Nat) (r : ProjectedRow) (i : Nat) :
    Option Nat :=
  if r.bitmap.getD i false then some (head + r.attrOffsets.getD i 0) else none

/-- `ProjectedRow::CopyProjectedRowLayout(head, other)` (delta_record.cpp
lines 9–15): memcpy the header — everything before the bitmap, i.e. `size_`,
`num_cols_`, the col ids and the offsets — into the destination, then clear
the destination's bitmap for `num_cols_` bits. Returns the written
destination together with the (untouched) source. -/
def ProjectedRow.copyProjectedRowLayout (other : ProjectedRow) :
    ProjectedRow × ProjectedRow :=
  (⟨other.size, other.numCols, other.colIds, other.attrOffsets,
    List.replicate other.numCols false⟩, other)

/-- The spec's reference offset sequence (§4.3 steps 2–3), indexed as the
spec writes it: `offsets[0]` is the size after the header blocks and bitmap;
`offsets[i+1]` advances `offsets[i]` by `attr_size(col_ids[i])` and pads to
`attr_size(col_ids[i+1])`. -/
def specOffset (L : BlockLayout) (cs : List Nat) (s0 : Nat) : Nat → Nat
  | 0 => s0
  | i + 1 =>
    StorageUtil.padUpToSize (L.attrSize (cs.getD (i + 1) 0))
      (specOffset L cs s0 i + L.attrSize (cs.getD i 0))

/-- The spec's reference header-block size (§4.3 step 2): start at the
header size, add 2 bytes per column id and pad to 4, add 4 bytes per offset
and pad to 8, add `ceil(n/8)` bitmap bytes and pad to the first (sorted)
column's attribute size. -/
def specHeaderEnd (L : BlockLayout) (cs : List Nat) : Nat :=
  StorageUtil.padUpToSize (L.attrSize (cs.getD 0 0))
    (StorageUtil.padUpToSize 8
      (StorageUtil.padUpToSize 4 (projectedRowHeaderSize + 2 * cs.length)
        + 4 * cs.length)
      + (cs.length + 7) / 8)

/-- The spec's reference total size (§4.3 steps 3–4): the last column's
offset, advanced by its attribute size and padded to 8. -/
def specTotalSize (L : BlockLayout) (cs : List Nat) : Nat :=
  StorageUtil.padUpToSize 8
    (specOffset L cs (specHeaderEnd L cs) (cs.length - 1)
      + L.attrSize (cs.getD (cs.length - 1) 0))

/-- `common::RawConcurrentBitmap::Test(i)`. Modelled from the spec (§4.2):
the bitmap container header is not in the sources; `test(i)` reads bit `i`. -/
def ConcurrentBitmap.test (b : Nat → Bool) (i : Nat) : Bool := b i

/-- `common::RawConcurrentBitmap::Flip(i, expected)`. Modelled from the spec
(§4.2): checks bit `i` against `expected` and toggles it on a match,
returning the new bitmap and whether the flip succeeded (the sequential
meaning of the CAS loop). -/
def ConcurrentBitmap.flip (b : Nat → Bool) (i : Nat) (expected : Bool) :
    (Nat → Bool) × Bool :=
  if b i = expected then (fun j => if j = i then !b j else b j, true) else (b, false)

/-- The mutable state of one `RawBlock` as the access strategy sees it:
the per-column presence bitmaps (column ↦ slot ↦ bit) and the block header's
`num_records_` counter (a `uint32_t`). -/
@[ext]
structure RawBlock where
  bitmaps : Nat → Nat → Bool
  numRecords : Nat

/-- `storage::TupleAccessStrategy`: the layout plus, for each column, the
start address of the column's value array inside the mini-block
(`MiniBlock::ColumnStart`, whose offset computation lives in
`tuple_access_strategy.cpp`, not in the sources; it is abstract here). -/
structure TupleAccessStrategy where
  layout : BlockLayout
  columnStart : Nat → Nat

/-- `TupleAccessStrategy::AccessWithNullCheck(slot, col)`
(tuple_access_strategy.h lines 162–165): nullptr when the column's presence
bit for the slot is unset, else the column start plus
`attr_size(col) * slot_offset`. -/
def TupleAccessStrategy.accessWithNullCheck (tas : TupleAccessStrategy)
    (s : RawBlock) (slot col : Nat) : Option Nat :=
  if !(ConcurrentBitmap.test (s.bitmaps col) slot) then none
  else some (tas.columnStart col + tas.layout.attrSize col * slot)

/-- `TupleAccessStrategy::AccessForceNotNull(slot, col)`
(tuple_access_strategy.h lines 186–190): if the bit is unset, flip it from
false; return the attribute pointer. Returns the new block state and the
pointer. -/
def TupleAccessStrategy.accessForceNotNull (tas : TupleAccessStrategy)
    (s : RawBlock) (slot col : Nat) : RawBlock × Nat :=
  let bm := s.bitmaps col
  let bm' := if !(ConcurrentBitmap.test bm slot) then (ConcurrentBitmap.flip bm slot false).1 else bm
  (⟨fun c => if c = col then bm' else s.bitmaps c, s.numRecords⟩,
   tas.columnStart col + tas.layout.attrSize col * slot)

/-- `TupleAccessStrategy::SetNull(slot, col)` (tuple_access_strategy.h lines
198–202): flip the presence bit expecting it set (a no-op if already null);
if the flip succeeded and `col` is the presence column 0, decrement the
block's `num_records_` (a wrapping `uint32_t`). -/
def TupleAccessStrategy.setNull (_ : TupleAccessStrategy)
    (s : RawBlock) (slot col : Nat) : RawBlock :=
  let (bm', success) := ConcurrentBitmap.flip (s.bitmaps col) slot true
  let recs := if success && col = 0
    then (s.numRecords + 2 ^ 32 - 1) % 2 ^ 32
    else s.numRecords
  ⟨fun c => if c = col then bm' else s.bitmaps c, recs⟩

/-- The state of a `common::ObjectPool` (object_pool.h): the reuse limit,
the FIFO reuse queue (objects named by numbers), and a counter modelling the
allocator's next fresh object. -/
structure ObjectPool where
  reuseLimit : Nat
  reuseQueue : List Nat
  nextFresh : Nat
deriving Repr, DecidableEq

/-- `ObjectPool::Get()` (object_pool.h lines 49–56): dequeue a recycled
object if the reuse queue has one, else allocate fresh. Returns the new pool
state, the object, and whether it was recycled. -/
def ObjectPool.get (p : ObjectPool) : ObjectPool × Nat × Bool :=
  match p.reuseQueue with
  | [] => (⟨p.reuseLimit, [], p.nextFresh + 1⟩, p.nextFresh, false)
  | x :: rest => (⟨p.reuseLimit, rest, p.nextFresh⟩, x, true)

/-- `ObjectPool::Release(obj)` (object_pool.h lines 65–70): if the reuse
queue's size exceeds the reuse limit, free the object; else enqueue it. -/
def ObjectPool.release (p : ObjectPool) (obj : Nat) : ObjectPool :=
  if p.reuseQueue.length > p.reuseLimit then p
  else ⟨p.reuseLimit, p.reuseQueue ++ [obj], p.nextFresh⟩

lemma padUpToSize_mod (w o : Nat) (hw : 0 < w) : StorageUtil.padUpToSize w o % w = 0 := by
  unfold StorageUtil.padUpToSize
  by_cases h : o % w = 0
  · simp [h]
  · have hlt : o % w < w := Nat.mod_lt _ hw
    have hsub : (w - o % w) % w = w - o % w := Nat.mod_eq_of_lt (by omega)
    simp only [h, if_neg]
    calc (o + (w - o % w)) % w = (o % w + (w - o % w) % w) % w := by rw [Nat.add_mod]
      _ = (o % w + (w - o % w)) % w := by rw [hsub]
      _ = w % w := by congr 1; omega
      _ = 0 := Nat.mod_self w

lemma BlockLayout.attrSize_pos {L : BlockLayout} (hL : L.validSizes) {c : Nat}
    (hc : c < L.numCols) : 0 < L.attrSize c := by
  have hg : L.attrSize c = L.attrSizes[c] := List.getD_eq_getElem _ _ hc
  have hm : L.attrSizes[c] ∈ L.attrSizes := List.getElem_mem hc
  rcases hL _ hm with h | h | h | h | h <;> omega

lemma getD_replicate_self (n i : Nat) (b : Bool) : (List.replicate n b).getD i b = b := by
  rcases Nat.lt_or_ge i n with h | h
  · rw [List.getD_eq_getElem _ _ (by simpa using h)]
    simp
  · rw [List.getD_eq_default _ _ (by simpa using h)]

lemma headD_eq_getD_zero (l : List Nat) : l.headD 0 = l.getD 0 0 := by
  cases l <;> rfl

lemma bodyLoop_single (L : BlockLayout) (c s : Nat) :
    ProjectedRowInitializer.bodyLoop L [c] s =
      ([s], StorageUtil.padUpToSize 8 (s + L.attrSize c)) := rfl

lemma bodyLoop_cons_cons (L : BlockLayout) (c c2 : Nat) (rest2 : List Nat) (s : Nat) :
    ProjectedRowInitializer.bodyLoop L (c :: c2 :: rest2) s =
      (s :: (ProjectedRowInitializer.bodyLoop L (c2 :: rest2)
          (StorageUtil.padUpToSize (L.attrSize c2) (s + L.attrSize c))).1,
        (ProjectedRowInitializer.bodyLoop L (c2 :: rest2)
          (StorageUtil.padUpToSize (L.attrSize c2) (s + L.attrSize c))).2) := rfl

lemma specOffset_cons (L : BlockLayout) (c : Nat) (rest : List Nat) (s : Nat) :
    ∀ i, specOffset L (c :: rest) s (i + 1) =
      specOffset L rest
        (StorageUtil.padUpToSize (L.attrSize (rest.getD 0 0)) (s + L.attrSize c)) i := by
  intro i
  induction i with
  | zero => simp [specOffset]
  | succ j ih =>
    show StorageUtil.padUpToSize (L.attrSize ((c :: rest).getD (j + 2) 0))
        (specOffset L (c :: rest) s (j + 1) + L.attrSize ((c :: rest).getD (j + 1) 0)) =
      specOffset L rest
        (StorageUtil.padUpToSize (L.attrSize (rest.getD 0 0)) (s + L.attrSize c)) (j + 1)
    rw [ih, List.getD_cons_succ, List.getD_cons_succ]
    rfl

lemma bodyLoop_offsets_getD (L : BlockLayout) :
    ∀ (cs : List Nat) (s i : Nat), i < cs.length →
      (ProjectedRowInitializer.bodyLoop L cs s).1.getD i 0 = specOffset L cs s i := by
  intro cs
  induction cs with
  | nil => intro s i hi; simp at hi
  | cons c rest ih =>
    intro s i hi
    match i, hi with
    | 0, _ =>
      match rest with
      | [] => rfl
      | c2 :: rest2 => rw [bodyLoop_cons_cons]; rfl
    | (j + 1), hj =>
      have hjr : j < rest.length := by simpa using hj
      match rest, hjr with
      | c2 :: rest2, hjr =>
        rw [bodyLoop_cons_cons, List.getD_cons_succ, ih _ _ hjr, specOffset_cons]
        rfl

lemma bodyLoop_total_eq (L : BlockLayout) :
    ∀ (cs : List Nat), cs ≠ [] → ∀ s : Nat,
      (ProjectedRowInitializer.bodyLoop L cs s).2 =
        StorageUtil.padUpToSize 8
          (specOffset L cs s (cs.length - 1) + L.attrSize (cs.getD (cs.length - 1) 0)) := by
  intro cs
  induction cs with
  | nil => intro h; exact absurd rfl h
  | cons c rest ih =>
    intro _ s
    match rest with
    | [] => rw [bodyLoop_single]; rfl
    | c2 :: rest2 =>
      rw [bodyLoop_cons_cons]
      rw [ih (by simp)]
      have h1 : (c :: c2 :: rest2).length - 1 = ((c2 :: rest2).length - 1) + 1 := by simp
      rw [h1, specOffset_cons, List.getD_cons_succ]
      rfl

lemma headerEnd_eq_specHeaderEnd (L : BlockLayout) (cs : List Nat) :
    ProjectedRowInitializer.headerEnd L cs = specHeaderEnd L cs := by
  unfold ProjectedRowInitializer.headerEnd specHeaderEnd RawBitmap.sizeInBytes
  rw [headD_eq_getD_zero, Nat.mul_comm cs.length 2, Nat.mul_comm cs.length 4]

lemma specOffset_aligned {L : BlockLayout} (hL : L.validSizes) (cs : List Nat)
    (hmem : ∀ c ∈ cs, c < L.numCols) (s0 : Nat)
    (h0 : s0 % L.attrSize (cs.getD 0 0) = 0) :
    ∀ i < cs.length, specOffset L cs s0 i % L.attrSize (cs.getD i 0) = 0 := by
  intro i hi
  match i with
  | 0 => exact h0
  | j + 1 =>
    have hc : cs.getD (j + 1) 0 ∈ cs := by
      rw [List.getD_eq_getElem _ _ hi]; exact List.getElem_mem hi
    exact padUpToSize_mod _ _ (BlockLayout.attrSize_pos hL (hmem _ hc))

/-- C1: the claim says constructing a `ProjectedRowInitializer` requires
`requested_col_ids` to be a strict non-empty subset of the columns — an empty
list must fail the assertion and a list selecting every column must fail the
assertion. The empty-list half holds: line 21 checks the member `col_ids_`
and rejects exactly the empty request. The full-column half fails on the
code: line 22 reads the parameter `col_ids` after it was moved into the
member, so on the two-column layout `[8, 4]` the full column list `[0, 1]`
passes the size assertion as written, although the assertion's own message
and the intended check reject it. -/
theorem ctorSizeAssert_checks_moved_from_list :
    ctorAssertNonEmptyAsWritten [] = false ∧
    ctorAssertNonEmptyAsWritten [1] = true ∧
    validColIds ⟨[8, 4]⟩ [1] ∧
    ctorAssertSizeAsWritten ⟨[8, 4]⟩ [0, 1] = true ∧
    ctorAssertsIntended ⟨[8, 4]⟩ [0, 1] = false := by
  decide

/-- C2 (amended): for every layout with attribute sizes in {1, 2, 4, 8, 16}
and every valid col_ids subset, each value slot's offset is divisible by its
column's attribute size; hence, over an 8-byte-aligned head, every slot whose
attribute size divides 8 sits at an address aligned to that size (a 16-byte
attribute's slot is only guaranteed 8-byte alignment). -/
theorem projectedRow_offsets_aligned (L : BlockLayout) (colIds : List Nat)
    (hL : L.validSizes) (hv : validColIds L colIds) (i : Nat)
    (hi : i < (ProjectedRowInitializer.create L colIds).colIds.length)
    (head : Nat) (hhead : head % 8 = 0) :
    (ProjectedRowInitializer.create L colIds).offsets.getD i 0 %
        L.attrSize ((ProjectedRowInitializer.create L colIds).colIds.getD i 0) = 0 ∧
    (L.attrSize ((ProjectedRowInitializer.create L colIds).colIds.getD i 0) ∣ 8 →
      (head + (ProjectedRowInitializer.create L colIds).offsets.getD i 0) %
        L.attrSize ((ProjectedRowInitializer.create L colIds).colIds.getD i 0) = 0) := by
  have hperm := List.perm_insertionSort (· ≤ ·) colIds
  have hmem : ∀ c ∈ List.insertionSort (· ≤ ·) colIds, c < L.numCols :=
    fun c hc => hv.2.2 c (hperm.subset hc)
  have hi' : i < (List.insertionSort (· ≤ ·) colIds).length := hi
  have hmem0 : (List.insertionSort (· ≤ ·) colIds).getD 0 0 ∈
      List.insertionSort (· ≤ ·) colIds := by
    have h0 : 0 < (List.insertionSort (· ≤ ·) colIds).length := Nat.lt_of_le_of_lt (Nat.zero_le _) hi'
    rw [List.getD_eq_getElem _ _ h0]
    exact List.getElem_mem h0
  have h0 : ProjectedRowInitializer.headerEnd L (List.insertionSort (· ≤ ·) colIds) %
      L.attrSize ((List.insertionSort (· ≤ ·) colIds).getD 0 0) = 0 := by
    unfold ProjectedRowInitializer.headerEnd
    rw [headD_eq_getD_zero]
    exact padUpToSize_mod _ _ (BlockLayout.attrSize_pos hL (hmem _ hmem0))
  have hoff : (ProjectedRowInitializer.create L colIds).offsets.getD i 0 %
      L.attrSize ((ProjectedRowInitializer.create L colIds).colIds.getD i 0) = 0 := by
    show (ProjectedRowInitializer.bodyLoop L (List.insertionSort (· ≤ ·) colIds)
        (ProjectedRowInitializer.headerEnd L (List.insertionSort (· ≤ ·) colIds))).1.getD i 0 %
      L.attrSize ((List.insertionSort (· ≤ ·) colIds).getD i 0) = 0
    rw [bodyLoop_offsets_getD L _ _ _ hi']
    exact specOffset_aligned hL _ hmem _ h0 i hi'
  refine ⟨hoff, fun hdvd => ?_⟩
  have hii : i < (List.insertionSort (· ≤ ·) colIds).length := hi'
  have hmemi : (List.insertionSort (· ≤ ·) colIds).getD i 0 ∈
      List.insertionSort (· ≤ ·) colIds := by
    rw [List.getD_eq_getElem _ _ hii]
    exact List.getElem_mem hii
  have hpos : 0 < L.attrSize ((ProjectedRowInitializer.create L colIds).colIds.getD i 0) :=
    BlockLayout.attrSize_pos hL (hmem _ hmemi)
  have hd1 : L.attrSize ((ProjectedRowInitializer.create L colIds).colIds.getD i 0) ∣ head :=
    dvd_trans hdvd (Nat.dvd_of_mod_eq_zero hhead)
  have hd2 : L.attrSize ((ProjectedRowInitializer.create L colIds).colIds.getD i 0) ∣
      (ProjectedRowInitializer.create L colIds).offsets.getD i 0 :=
    Nat.dvd_of_mod_eq_zero hoff
  exact Nat.mod_eq_zero_of_dvd (Nat.dvd_add hd1 hd2)

/-- C2 counterexample: the claim as stated is false — for the layout with
attribute sizes `[16, 8]` and the valid subset `[0]`, the single value slot's
offset is 32, so over the 8-byte-aligned head 8 the slot sits at address 40,
which is not aligned to the column's 16-byte attribute size. -/
theorem projectedRow_alignment_claim_cex :
    BlockLayout.validSizes ⟨[16, 8]⟩ ∧ validColIds ⟨[16, 8]⟩ [0] ∧ (8 : Nat) % 8 = 0 ∧
    ((8 : Nat) + (ProjectedRowInitializer.create ⟨[16, 8]⟩ [0]).offsets.getD 0 0) %
      BlockLayout.attrSize ⟨[16, 8]⟩
        ((ProjectedRowInitializer.create ⟨[16, 8]⟩ [0]).colIds.getD 0 0) ≠ 0 := by
  decide

/-- C3: for every valid `(layout, col_ids)`, the size and per-column offsets
computed by the `ProjectedRowInitializer` constructor equal the spec's
reference algorithm: header size, col-id block padded to 4, offset block
padded to 8, bitmap padded to the first sorted column's attribute size, then
per column the running size as offset, advanced by the attribute size and
padded to the next column's size or, at the last column, to 8. -/
theorem initializer_matches_spec_algorithm (L : BlockLayout) (colIds : List Nat)
    (hv : validColIds L colIds) :
    (ProjectedRowInitializer.create L colIds).size =
      specTotalSize L (List.insertionSort (· ≤ ·) colIds) ∧
    ∀ i < (ProjectedRowInitializer.create L colIds).colIds.length,
      (ProjectedRowInitializer.create L colIds).offsets.getD i 0 =
        specOffset L (List.insertionSort (· ≤ ·) colIds)
          (specHeaderEnd L (List.insertionSort (· ≤ ·) colIds)) i := by
  have hperm := List.perm_insertionSort (· ≤ ·) colIds
  have hlen : (List.insertionSort (· ≤ ·) colIds).length = colIds.length := hperm.length_eq
  have hsortne : List.insertionSort (· ≤ ·) colIds ≠ [] := by
    intro h
    rw [h] at hlen
    exact hv.1 (List.length_eq_zero.mp hlen.symm)
  constructor
  · show (ProjectedRowInitializer.bodyLoop L (List.insertionSort (· ≤ ·) colIds)
        (ProjectedRowInitializer.headerEnd L (List.insertionSort (· ≤ ·) colIds))).2 = _
    rw [bodyLoop_total_eq L _ hsortne, headerEnd_eq_specHeaderEnd]
    rfl
  · intro i hi
    have hi' : i < (List.insertionSort (· ≤ ·) colIds).length := hi
    show (ProjectedRowInitializer.bodyLoop L (List.insertionSort (· ≤ ·) colIds)
        (ProjectedRowInitializer.headerEnd L (List.insertionSort (· ≤ ·) colIds))).1.getD i 0 = _
    rw [bodyLoop_offsets_getD L _ _ _ hi', headerEnd_eq_specHeaderEnd]

/-- C4: for every valid initializer and 8-byte-aligned buffer, the
initialized row's size equals the initializer's precomputed size, its
num_cols equals the number of requested columns, its col id list is the
ascending-sorted request, its attribute-value offsets are the precomputed
offsets, and the null bitmap is entirely zero, so a null-checked access of
any column returns none. -/
theorem initializeRow_self_consistent (L : BlockLayout) (colIds : List Nat)
    (hv : validColIds L colIds) (head : Nat) (hd8 : head % 8 = 0) :
    (ProjectedRowInitializer.create L colIds).initializeRow.size =
        (ProjectedRowInitializer.create L colIds).size ∧
    (ProjectedRowInitializer.create L colIds).initializeRow.numCols = colIds.length ∧
    (ProjectedRowInitializer.create L colIds).initializeRow.colIds =
        List.insertionSort (· ≤ ·) colIds ∧
    List.Sorted (· ≤ ·) (ProjectedRowInitializer.create L colIds).initializeRow.colIds ∧
    (ProjectedRowInitializer.create L colIds).initializeRow.attrOffsets =
        (ProjectedRowInitializer.create L colIds).offsets ∧
    (∀ i, (ProjectedRowInitializer.create L colIds).initializeRow.bitmap.getD i false
        = false) ∧
    (∀ i, ProjectedRow.accessWithNullCheck head
        (ProjectedRowInitializer.create L colIds).initializeRow i = none) := by
  refine ⟨rfl, ?_, rfl, ?_, rfl, fun i => getD_replicate_self _ _ _, fun i => ?_⟩
  · exact (List.perm_insertionSort (· ≤ ·) colIds).length_eq
  · exact List.sorted_insertionSort (· ≤ ·) colIds
  · have hb : (ProjectedRowInitializer.create L colIds).initializeRow.bitmap.getD i false
        = false := getD_replicate_self _ _ _
    simp only [ProjectedRow.accessWithNullCheck]
    rw [hb]
    simp

/-- C8: `CopyProjectedRowLayout` copies the source's entire header — size,
num_cols, col ids and attribute-value offsets — into the destination
unchanged, leaves the destination's null bitmap entirely cleared (so every
null-checked access of the copy returns none), and does not modify the
source row. -/
theorem copyProjectedRowLayout_clones_shape (other : ProjectedRow) :
    (ProjectedRow.copyProjectedRowLayout other).1.size = other.size ∧
    (ProjectedRow.copyProjectedRowLayout other).1.numCols = other.numCols ∧
    (ProjectedRow.copyProjectedRowLayout other).1.colIds = other.colIds ∧
    (ProjectedRow.copyProjectedRowLayout other).1.attrOffsets = other.attrOffsets ∧
    (∀ i, (ProjectedRow.copyProjectedRowLayout other).1.bitmap.getD i false = false) ∧
    (∀ head i, ProjectedRow.accessWithNullCheck head
        (ProjectedRow.copyProjectedRowLayout other).1 i = none) ∧
    (ProjectedRow.copyProjectedRowLayout other).2 = other := by
  refine ⟨rfl, rfl, rfl, rfl, fun i => getD_replicate_self _ _ _, fun head i => ?_, rfl⟩
  have hb : (ProjectedRow.copyProjectedRowLayout other).1.bitmap.getD i false = false :=
    getD_replicate_self _ _ _
  simp only [ProjectedRow.accessWithNullCheck]
  rw [hb]
  simp

/-- C5: for every tuple slot and column, `AccessWithNullCheck` returns none
exactly when the column's presence bit for the slot is 0, and otherwise
returns the pointer to the attribute's bytes — the column start plus
`attr_size(col)` times the slot offset. -/
theorem accessWithNullCheck_presence_bit (tas : TupleAccessStrategy) (s : RawBlock)
    (slot col : Nat) :
    (tas.accessWithNullCheck s slot col = none ↔ s.bitmaps col slot = false) ∧
    (s.bitmaps col slot = true →
      tas.accessWithNullCheck s slot col =
        some (tas.columnStart col + tas.layout.attrSize col * slot)) := by
  unfold TupleAccessStrategy.accessWithNullCheck ConcurrentBitmap.test
  cases h : s.bitmaps col slot <;> simp [h]

/-- C6: after `AccessForceNotNull(slot, col)` the presence bit is 1 and
`AccessWithNullCheck(slot, col)` returns the very pointer
`AccessForceNotNull` returned; after `SetNull(slot, col)` the presence bit is
0 and `AccessWithNullCheck` returns none; and `AccessForceNotNull` is
idempotent — a second call leaves the block state unchanged and returns the
same pointer. -/
theorem accessForceNotNull_setNull_roundtrip (tas : TupleAccessStrategy) (s : RawBlock)
    (slot col : Nat) :
    (tas.accessForceNotNull s slot col).1.bitmaps col slot = true ∧
    tas.accessWithNullCheck (tas.accessForceNotNull s slot col).1 slot col =
      some (tas.accessForceNotNull s slot col).2 ∧
    (tas.setNull s slot col).bitmaps col slot = false ∧
    tas.accessWithNullCheck (tas.setNull s slot col) slot col = none ∧
    tas.accessForceNotNull (tas.accessForceNotNull s slot col).1 slot col =
      tas.accessForceNotNull s slot col := by
  have hbit : ∀ st : RawBlock, (tas.accessForceNotNull st slot col).1.bitmaps col slot = true := by
    intro st
    unfold TupleAccessStrategy.accessForceNotNull ConcurrentBitmap.test ConcurrentBitmap.flip
    cases h : st.bitmaps col slot <;> simp [h]
  have hsetbit : (tas.setNull s slot col).bitmaps col slot = false := by
    unfold TupleAccessStrategy.setNull ConcurrentBitmap.flip
    cases h : s.bitmaps col slot <;> simp [h]
  refine ⟨hbit s, ?_, hsetbit, ?_, ?_⟩
  · unfold TupleAccessStrategy.accessWithNullCheck ConcurrentBitmap.test
    rw [hbit s]
    unfold TupleAccessStrategy.accessForceNotNull
    simp
  · unfold TupleAccessStrategy.accessWithNullCheck ConcurrentBitmap.test
    rw [hsetbit]
    simp
  · unfold TupleAccessStrategy.accessForceNotNull ConcurrentBitmap.test ConcurrentBitmap.flip
    cases h : s.bitmaps col slot <;>
      · simp only [h]
        refine Prod.ext ?_ rfl
        refine RawBlock.ext ?_ rfl
        funext c
        by_cases hc : c = col <;> simp [hc, h]

/-- C7: `SetNull(slot, col)` clears the column's presence bit; on the
presence column 0, when the slot was live (bit 1), `num_records` is
decremented by exactly one (as a `uint32_t`); `SetNull` on any other column
never changes `num_records`. -/
theorem setNull_frees_presence (tas : TupleAccessStrategy) (s : RawBlock)
    (slot col : Nat) :
    (tas.setNull s slot col).bitmaps col slot = false ∧
    (col ≠ 0 → (tas.setNull s slot col).numRecords = s.numRecords) ∧
    (col = 0 → s.bitmaps 0 slot = true → 0 < s.numRecords → s.numRecords < 2 ^ 32 →
      (tas.setNull s slot col).numRecords = s.numRecords - 1) := by
  refine ⟨?_, ?_, ?_⟩
  · unfold TupleAccessStrategy.setNull ConcurrentBitmap.flip
    cases h : s.bitmaps col slot <;> simp [h]
  · intro hcol
    unfold TupleAccessStrategy.setNull ConcurrentBitmap.flip
    cases h : s.bitmaps col slot <;> simp [h, hcol]
  · intro hcol hlive hpos hlt
    subst hcol
    unfold TupleAccessStrategy.setNull ConcurrentBitmap.flip
    simp only [hlive]
    simp
    omega

/-- C10: on a slot whose presence bit is already 0, `SetNull(slot, 0)`
leaves the block's `num_records` unchanged — the decrement happens only on
an actual 1-to-0 transition — so a repeated `SetNull` on the presence column
changes `num_records` at most on its first call. -/
theorem setNull_decrement_once (tas : TupleAccessStrategy) (s : RawBlock) (slot : Nat) :
    (s.bitmaps 0 slot = false → (tas.setNull s slot 0).numRecords = s.numRecords) ∧
    (tas.setNull (tas.setNull s slot 0) slot 0).numRecords =
      (tas.setNull s slot 0).numRecords := by
  constructor
  · intro hdead
    unfold TupleAccessStrategy.setNull ConcurrentBitmap.flip
    simp [hdead]
  · have hbit : (tas.setNull s slot 0).bitmaps 0 slot = false := by
      unfold TupleAccessStrategy.setNull ConcurrentBitmap.flip
      cases h : s.bitmaps 0 slot <;> simp [h]
    conv_lhs => rw [TupleAccessStrategy.setNull]
    unfold ConcurrentBitmap.flip
    simp [hbit]

/-- C9: `ObjectPool::Get` returns the recycled object dequeued from the
reuse queue when one is available and a freshly allocated one otherwise;
`ObjectPool::Release` enqueues the object when the queue's current size does
not exceed the reuse limit and frees it otherwise, so the reuse queue never
holds more than `reuse_limit + 1` recycled objects. -/
theorem objectPool_get_release_contract (p : ObjectPool) (obj : Nat) :
    (p.reuseQueue = [] →
      p.get = (⟨p.reuseLimit, [], p.nextFresh + 1⟩, p.nextFresh, false)) ∧
    (∀ x rest, p.reuseQueue = x :: rest →
      p.get = (⟨p.reuseLimit, rest, p.nextFresh⟩, x, true)) ∧
    (p.reuseQueue.length ≤ p.reuseLimit →
      (p.release obj).reuseQueue = p.reuseQueue ++ [obj]) ∧
    (p.reuseQueue.length > p.reuseLimit → p.release obj = p) ∧
    (p.reuseQueue.length ≤ p.reuseLimit + 1 →
      (p.release obj).reuseQueue.length ≤ p.reuseLimit + 1) := by
  refine ⟨?_, ?_, ?_, ?_, ?_⟩
  · intro h
    unfold ObjectPool.get
    rw [h]
  · intro x rest h
    unfold ObjectPool.get
    rw [h]
  · intro h
    unfold ObjectPool.release
    rw [if_neg (by omega)]
  · intro h
    unfold ObjectPool.release
    rw [if_pos h]
  · intro h
    unfold ObjectPool.release
    by_cases hgt : p.reuseQueue.length > p.reuseLimit
    · rw [if_pos hgt]; omega
    · rw [if_neg hgt]; simp; omega

/-- Witness for the amended C2 theorem at the layout `[8, 4]`, request `[1]`,
column index 0 and head 16. -/
theorem projectedRow_offsets_aligned_witness :
    BlockLayout.validSizes ⟨[8, 4]⟩ ∧ validColIds ⟨[8, 4]⟩ [1] ∧
    0 < (ProjectedRowInitializer.create ⟨[8, 4]⟩ [1]).colIds.length ∧
    (16 : Nat) % 8 = 0 ∧
    BlockLayout.attrSize ⟨[8, 4]⟩
      ((ProjectedRowInitializer.create ⟨[8, 4]⟩ [1]).colIds.getD 0 0) ∣ 8 ∧
    (ProjectedRowInitializer.create ⟨[8, 4]⟩ [1]).offsets.getD 0 0 %
      BlockLayout.attrSize ⟨[8, 4]⟩
        ((ProjectedRowInitializer.create ⟨[8, 4]⟩ [1]).colIds.getD 0 0) = 0 ∧
    ((16 : Nat) + (ProjectedRowInitializer.create ⟨[8, 4]⟩ [1]).offsets.getD 0 0) %
      BlockLayout.attrSize ⟨[8, 4]⟩
        ((ProjectedRowInitializer.create ⟨[8, 4]⟩ [1]).colIds.getD 0 0) = 0 :=
  ⟨by decide, by decide, by decide, by decide, by decide,
   (projectedRow_offsets_aligned ⟨[8, 4]⟩ [1] (by decide) (by decide) 0 (by decide) 16
     (by decide)).1,
   (projectedRow_offsets_aligned ⟨[8, 4]⟩ [1] (by decide) (by decide) 0 (by decide) 16
     (by decide)).2 (by decide)⟩

/-- Witness for the C3 theorem at the layout `[8, 4, 2, 1]` and request
`[2, 1]`. -/
theorem initializer_matches_spec_algorithm_witness :
    validColIds ⟨[8, 4, 2, 1]⟩ [2, 1] ∧
    (ProjectedRowInitializer.create ⟨[8, 4, 2, 1]⟩ [2, 1]).size =
      specTotalSize ⟨[8, 4, 2, 1]⟩ (List.insertionSort (· ≤ ·) [2, 1]) ∧
    0 < (ProjectedRowInitializer.create ⟨[8, 4, 2, 1]⟩ [2, 1]).colIds.length ∧
    (ProjectedRowInitializer.create ⟨[8, 4, 2, 1]⟩ [2, 1]).offsets.getD 0 0 =
      specOffset ⟨[8, 4, 2, 1]⟩ (List.insertionSort (· ≤ ·) [2, 1])
        (specHeaderEnd ⟨[8, 4, 2, 1]⟩ (List.insertionSort (· ≤ ·) [2, 1])) 0 :=
  ⟨by decide,
   (initializer_matches_spec_algorithm ⟨[8, 4, 2, 1]⟩ [2, 1] (by decide)).1,
   by decide,
   (initializer_matches_spec_algorithm ⟨[8, 4, 2, 1]⟩ [2, 1] (by decide)).2 0 (by decide)⟩

/-- Witness for the C4 theorem at the layout `[8, 4, 2, 1]`, request `[2, 1]`
and head 16. -/
theorem initializeRow_self_consistent_witness :
    validColIds ⟨[8, 4, 2, 1]⟩ [2, 1] ∧ (16 : Nat) % 8 = 0 ∧
    (ProjectedRowInitializer.create ⟨[8, 4, 2, 1]⟩ [2, 1]).initializeRow.numCols = 2 ∧
    ProjectedRow.accessWithNullCheck 16
      (ProjectedRowInitializer.create ⟨[8, 4, 2, 1]⟩ [2, 1]).initializeRow 0 = none :=
  ⟨by decide, by decide,
   (initializeRow_self_consistent ⟨[8, 4, 2, 1]⟩ [2, 1] (by decide) 16 (by decide)).2.1,
   (initializeRow_self_consistent ⟨[8, 4, 2, 1]⟩ [2, 1] (by decide) 16
     (by decide)).2.2.2.2.2.2 0⟩

/-- Witness for the C5 theorem on a block whose bits are all set, at slot 3
of column 1 with column start 64 and attribute size 4. -/
theorem accessWithNullCheck_presence_bit_witness :
    (⟨fun _ _ => true, 1⟩ : RawBlock).bitmaps 1 3 = true ∧
    TupleAccessStrategy.accessWithNullCheck ⟨⟨[8, 4]⟩, fun c => 64 * c⟩
      ⟨fun _ _ => true, 1⟩ 3 1 = some 76 :=
  ⟨rfl,
   (accessWithNullCheck_presence_bit ⟨⟨[8, 4]⟩, fun c => 64 * c⟩
     ⟨fun _ _ => true, 1⟩ 3 1).2 rfl⟩

/-- Witness for the C7 theorem: a live slot 2 on the presence column of a
block with 5 records is freed and the count drops to 4. -/
theorem setNull_frees_presence_witness :
    (⟨fun _ _ => true, 5⟩ : RawBlock).bitmaps 0 2 = true ∧ (0 : Nat) < 5 ∧
    (5 : Nat) < 2 ^ 32 ∧
    (TupleAccessStrategy.setNull ⟨⟨[8]⟩, fun _ => 0⟩
      ⟨fun _ _ => true, 5⟩ 2 0).numRecords = 5 - 1 :=
  ⟨rfl, by decide, by decide,
   (setNull_frees_presence ⟨⟨[8]⟩, fun _ => 0⟩ ⟨fun _ _ => true, 5⟩ 2 0).2.2 rfl rfl
     (by decide) (by decide)⟩

/-- Witness for the C10 theorem: `SetNull` on an already-dead slot leaves
`num_records` at 5. -/
theorem setNull_decrement_once_witness :
    (⟨fun _ _ => false, 5⟩ : RawBlock).bitmaps 0 2 = false ∧
    (TupleAccessStrategy.setNull ⟨⟨[8]⟩, fun _ => 0⟩
      ⟨fun _ _ => false, 5⟩ 2 0).numRecords = 5 :=
  ⟨rfl,
   (setNull_decrement_once ⟨⟨[8]⟩, fun _ => 0⟩ ⟨fun _ _ => false, 5⟩ 2).1 rfl⟩

/-- Witness for the C9 theorem on a pool with reuse limit 2 holding one
recycled object. -/
theorem objectPool_get_release_contract_witness :
    (⟨2, [7], 10⟩ : ObjectPool).reuseQueue.length ≤ (⟨2, [7], 10⟩ : ObjectPool).reuseLimit ∧
    ((⟨2, [7], 10⟩ : ObjectPool).release 9).reuseQueue = [7] ++ [9] ∧
    (⟨2, [7], 10⟩ : ObjectPool).reuseQueue.length ≤
      (⟨2, [7], 10⟩ : ObjectPool).reuseLimit + 1 ∧
    ((⟨2, [7], 10⟩ : ObjectPool).release 9).reuseQueue.length ≤
      (⟨2, [7], 10⟩ : ObjectPool).reuseLimit + 1 :=
  ⟨by decide,
   (objectPool_get_release_contract ⟨2, [7], 10⟩ 9).2.2.1 (by decide),
   by decide,
   (objectPool_get_release_contract ⟨2, [7], 10⟩ 9).2.2.2.2 (by decide)⟩
